import Mathlib

/-!
# Verification of the DailyTopics topic-modeling aggregation pipeline

Shallow embedding of `src/models/topic_model.py` (and the persistence glue in
`scripts/process_topics.py`). Python dictionaries for articles are modelled as
records whose fields are `Option`-valued: `none` models an absent key, matching
the source's use of `dict.get` with and without a default. Python's in-place
mutation of the caller's article dictionaries is modelled by returning the
post-call article list alongside the composed result. Python's `dict` (which
preserves insertion order under iteration and JSON serialization) is modelled
as an association list in insertion order. The external topic-discovery
libraries (scikit-learn LDA/NMF, BERTopic) are parameters of the pipeline:
each backend is a function from the preprocessed texts to an optional raw
output, `none` modelling backend failure/unavailability. Python's `set`
iteration order (which `list(set(...))` exposes at line 235 of the source) is
modelled by an explicit enumeration function `setOrder`; an admissible
enumeration returns some duplicate-free ordering of the elements.
-/

set_option autoImplicit false

namespace DailyTopics


/-- An input article dictionary: exactly the keys read by
`process_articles_for_topics`. `none` models an absent key. -/
structure Article where
  article_id : Option String := none
  title : Option String := none
  newspaper : Option String := none
  url : Option String := none
  summary : Option String := none
  preprocessed_text : Option String := none
  dominant_topic : Option Int := none
  topic_distribution : Option (List ℚ) := none
  deriving Repr, DecidableEq

/-- A raw topic record produced by a backend (before labelling/aggregation):
`topic_id`, `words`, `weights`, and for the BERTopic backend also `count`. -/
structure RawTopic where
  topic_id : Int
  words : List String
  weights : List ℚ
  count : Option Nat := none
  deriving Repr, DecidableEq

/-- The per-article record appended to `articles_by_topic[topic_id]`
(source lines 218-224): each field read with `dict.get(key, '')`. -/
structure TopicEntry where
  article_id : String
  title : String
  newspaper : String
  url : String
  summary : String
  deriving Repr, DecidableEq

/-- A fully composed topic in the result: the raw topic enriched with
`label`, `articles`, `newspaper_counts` and `newspaper_weights`. -/
structure Topic where
  topic_id : Int
  words : List String
  weights : List ℚ
  count : Option Nat := none
  label : String
  articles : List TopicEntry
  newspaper_counts : List (String × Nat)
  newspaper_weights : List (String × ℚ)
  deriving Repr, DecidableEq

/-- The composed result dictionary (source lines 258-264). -/
structure TopicResult where
  date : String
  algorithm : String
  num_articles : Nat
  num_topics : Nat
  topics : List Topic
  deriving Repr, DecidableEq

/-- The three pluggable backends and the library-availability flag.
`lda`/`nmf` return raw topics plus the per-document distribution matrix;
`bertopic` (as used at line 182, where assignments are discarded) returns
only raw topics. `none` models failure or an unavailable library. -/
structure Backends where
  lda : List String → Nat → Option (List RawTopic × List (List ℚ))
  nmf : List String → Nat → Option (List RawTopic × List (List ℚ))
  bertopic : List String → Option (List RawTopic)
  bertopic_available : Bool

/-- Python truthiness of `article.get('preprocessed_text')` (line 170):
the key is present and the string non-empty. -/
def hasText (a : Article) : Bool :=
  a.preprocessed_text.getD "" ≠ ""

/-- Embedding of `np.argmax` on a list of rationals: index of the first occurrence of the
maximum (numpy's documented tie-breaking); `0` on the empty list, on which
numpy instead raises. -/
def npArgmax : List ℚ → Nat
  | [] => 0
  | [_] => 0
  | x :: y :: rest =>
    let m := npArgmax (y :: rest)
    if x < (y :: rest).getD m 0 then m + 1 else 0

/-- Embedding of `generate_topic_label` (lines 160-166): capitalized first word, or the
fallback `"Miscellaneous"`. Python's `str.capitalize` upper-cases the first
character and lower-cases the rest. -/
def generate_topic_label (topic_words : List String) : String :=
  match topic_words with
  | [] => "Miscellaneous"
  | w :: _ =>
    match w.data with
    | [] => ""
    | c :: cs => String.mk (c.toUpper :: cs.map Char.toLower)

/-- The assignment loop (lines 198-207): article at index `i` gets
`dominant_topic = argmax(doc_topic_dists[i])` and its distribution when
`i < len(doc_topic_dists)`, else `dominant_topic = -1` and `[]`. -/
def assignGo (dists : List (List ℚ)) : Nat → List Article → List Article
  | _, [] => []
  | i, a :: rest =>
    (match dists.get? i with
     | some d =>
       { a with dominant_topic := some (Int.ofNat (npArgmax d)),
                topic_distribution := some d }
     | none =>
       { a with dominant_topic := some (-1),
                topic_distribution := some [] }) :: assignGo dists (i + 1) rest

/-- One iteration of the assignment loop for the article at overall index
`i` (lines 200-207). -/
def assignOne (dists : List (List ℚ)) (i : Nat) (a : Article) : Article :=
  match dists.get? i with
  | some d =>
    { a with dominant_topic := some (Int.ofNat (npArgmax d)),
             topic_distribution := some d }
  | none =>
    { a with dominant_topic := some (-1), topic_distribution := some [] }

/-- Projection of an article to the record stored in a topic's `articles`
list (lines 218-224): every field via `get(key, '')`. -/
def topicEntryOf (a : Article) : TopicEntry :=
  { article_id := a.article_id.getD ""
    title := a.title.getD ""
    newspaper := a.newspaper.getD ""
    url := a.url.getD ""
    summary := a.summary.getD "" }

/-- Grouping (lines 210-224) followed by per-topic aggregation (lines
226-255) for one raw topic: its article list is the articles whose
`dominant_topic` equals its id; `newspaper_counts`/`newspaper_weights` are
keyed over `newspapers` in iteration order. Note the source's asymmetry:
the per-topic count (line 242) compares the entry's defaulted newspaper
string, while the per-source total (line 246) uses `get('newspaper')`
with no default, matching only articles whose key is present. -/
def buildTopic (newspapers : List String) (articles2 : List Article)
    (rt : RawTopic) : Topic :=
  let entries := (articles2.filter
    (fun a => a.dominant_topic == some rt.topic_id)).map topicEntryOf
  { topic_id := rt.topic_id
    words := rt.words
    weights := rt.weights
    count := rt.count
    label := generate_topic_label rt.words
    articles := entries
    newspaper_counts := newspapers.map
      (fun np => (np, (entries.filter (fun e => e.newspaper == np)).length))
    newspaper_weights := newspapers.map
      (fun np =>
        let c := (entries.filter (fun e => e.newspaper == np)).length
        let total := (articles2.filter (fun a => a.newspaper == some np)).length
        (np, if 0 < total then (c : ℚ) / (total : ℚ) else 0)) }

/-- Backend dispatch (lines 179-187): `'nmf'` runs NMF; `'bertopic'` runs
BERTopic only when the library is available (assignments discarded);
every other algorithm string falls through to LDA. -/
def chooseBackend (bk : Backends) (texts : List String)
    (algorithm : String) (n_topics : Nat) :
    Option (List RawTopic × Option (List (List ℚ))) :=
  if algorithm == "nmf" then
    (bk.nmf texts n_topics).map (fun p => (p.1, some p.2))
  else if algorithm == "bertopic" && bk.bertopic_available then
    (bk.bertopic texts).map (fun t => (t, none))
  else
    (bk.lda texts n_topics).map (fun p => (p.1, some p.2))

/-- Embedding of `process_articles_for_topics` (lines 168-266). `today` models
`datetime.now().strftime('%Y-%m-%d')`; `setOrder` models the iteration
order of `list(set(...))` at line 235. Returns `none` where the source
returns `None` (empty filtered corpus, backend failure, or an empty topic
list, all falsy at lines 172 and 189); on success returns the composed
result together with the post-call state of the caller's (mutated)
article list. -/
def process_articles_for_topics (today : String) (bk : Backends)
    (setOrder : List String → List String) (articles : List Article)
    (algorithm : String) (n_topics : Nat) :
    Option (TopicResult × List Article) :=
  let texts := (articles.filter hasText).map (fun a => a.preprocessed_text.getD "")
  if texts.isEmpty then none
  else
    match chooseBackend bk texts algorithm n_topics with
    | none => none
    | some (rawTopics, distsOpt) =>
      if rawTopics.isEmpty then none
      else
        let articles2 :=
          match distsOpt with
          | some dists => assignGo dists 0 articles
          | none => articles
        let newspapers := setOrder (articles2.map (fun a => a.newspaper.getD ""))
        let topics := rawTopics.map (buildTopic newspapers articles2)
        some ({ date := today
                algorithm := algorithm
                num_articles := articles.length
                num_topics := topics.length
                topics := topics }, articles2)

/-- The file name computed by `save_topic_results` (lines 268-282); the
returned value models the persisted artifact's key. -/
def save_filename (r : TopicResult) : String :=
  "data/topics/topics_" ++ r.date ++ "_" ++ r.algorithm ++ ".json"

/-- The topic-processing and persistence part of `process_single_day`
(`scripts/process_topics.py`, lines 38-50): on a truthy result it saves and
returns it; on `None` it saves nothing and returns `None`. The second
component is the persisted file name, `none` when nothing was persisted. -/
def process_single_day (today : String) (bk : Backends)
    (setOrder : List String → List String) (articles : List Article)
    (algorithm : String) (n_topics : Nat) :
    Option TopicResult × Option String :=
  match process_articles_for_topics today bk setOrder articles algorithm n_topics with
  | some (r, _) => (some r, some (save_filename r))
  | none => (none, none)

/-- The topic-info filtering step of `try_bertopic` (lines 144-153): rows of
`get_topic_info()` with `Topic != -1` become raw topic records; the outlier
row is skipped. The words/weights delivered by `topic_model.get_topic` are
carried on the row. -/
structure BerRow where
  topic : Int
  count : Nat
  words : List String
  weights : List ℚ
  deriving Repr, DecidableEq

/-- Canonical raw topics produced by `try_bertopic` from the backend's
topic-info table. -/
def try_bertopic_topics (info : List BerRow) : List RawTopic :=
  (info.filter (fun row => row.topic != -1)).map
    (fun row => { topic_id := row.topic
                  words := row.words
                  weights := row.weights
                  count := some row.count })

/-- The topics of the result that an article contributes to: those whose
`topic_id` equals the article's `dominant_topic` (the grouping condition of
lines 215-224). -/
def assignedTopics (r : TopicResult) (a : Article) : List Topic :=
  r.topics.filter (fun t => a.dominant_topic == some t.topic_id)

/-- The fields of an article that the assignment loop never writes. -/
def sameBase (a b : Article) : Prop :=
  a.article_id = b.article_id ∧ a.title = b.title ∧ a.newspaper = b.newspaper ∧
  a.url = b.url ∧ a.summary = b.summary ∧ a.preprocessed_text = b.preprocessed_text

/-- A concrete two-article corpus from two sources, `"b"` before `"a"`. -/
def sampleArticles : List Article :=
  [{ article_id := some "a1", title := some "T1", newspaper := some "b",
     url := some "u1", summary := some "s1", preprocessed_text := some "governo legge" },
   { article_id := some "a2", title := some "T2", newspaper := some "a",
     url := some "u2", summary := some "s2", preprocessed_text := some "calcio partita" }]

/-- A concrete deterministic backend set: the LDA backend always returns two
topics and one (integer-valued) distribution row per document. -/
def sampleBackends : Backends :=
  { lda := fun _ _ =>
      some ([{ topic_id := 0, words := ["governo"], weights := [3] },
             { topic_id := 1, words := ["calcio"], weights := [2] }],
            [[7, 3], [2, 5]])
    nmf := fun _ _ => none
    bertopic := fun _ => none
    bertopic_available := false }

/-- Expected post-call state of `sampleArticles`: each article gained
`dominant_topic` and `topic_distribution`. -/
def sampleMutated : List Article :=
  [{ article_id := some "a1", title := some "T1", newspaper := some "b",
     url := some "u1", summary := some "s1", preprocessed_text := some "governo legge",
     dominant_topic := some 0, topic_distribution := some [7, 3] },
   { article_id := some "a2", title := some "T2", newspaper := some "a",
     url := some "u2", summary := some "s2", preprocessed_text := some "calcio partita",
     dominant_topic := some 1, topic_distribution := some [2, 5] }]

/-- Expected composed result on the sample corpus (set order = `List.dedup`,
first-occurrence order, i.e. `["b", "a"]`). -/
def sampleResult : TopicResult :=
  { date := "2025-10-12", algorithm := "lda", num_articles := 2, num_topics := 2,
    topics :=
      [{ topic_id := 0, words := ["governo"], weights := [3], label := "Governo",
         articles := [{ article_id := "a1", title := "T1", newspaper := "b",
                        url := "u1", summary := "s1" }],
         newspaper_counts := [("b", 1), ("a", 0)],
         newspaper_weights := [("b", ((1 : ℕ) : ℚ) / ((1 : ℕ) : ℚ)),
                               ("a", ((0 : ℕ) : ℚ) / ((1 : ℕ) : ℚ))] },
       { topic_id := 1, words := ["calcio"], weights := [2], label := "Calcio",
         articles := [{ article_id := "a2", title := "T2", newspaper := "a",
                        url := "u2", summary := "s2" }],
         newspaper_counts := [("b", 0), ("a", 1)],
         newspaper_weights := [("b", ((0 : ℕ) : ℚ) / ((1 : ℕ) : ℚ)),
                               ("a", ((1 : ℕ) : ℚ) / ((1 : ℕ) : ℚ))] }] }

/-- Expected composed result when the source set is enumerated in the
reverse order `["a", "b"]`: same statistics, different emission order. -/
def sampleResultRev : TopicResult :=
  { date := "2025-10-12", algorithm := "lda", num_articles := 2, num_topics := 2,
    topics :=
      [{ topic_id := 0, words := ["governo"], weights := [3], label := "Governo",
         articles := [{ article_id := "a1", title := "T1", newspaper := "b",
                        url := "u1", summary := "s1" }],
         newspaper_counts := [("a", 0), ("b", 1)],
         newspaper_weights := [("a", ((0 : ℕ) : ℚ) / ((1 : ℕ) : ℚ)),
                               ("b", ((1 : ℕ) : ℚ) / ((1 : ℕ) : ℚ))] },
       { topic_id := 1, words := ["calcio"], weights := [2], label := "Calcio",
         articles := [{ article_id := "a2", title := "T2", newspaper := "a",
                        url := "u2", summary := "s2" }],
         newspaper_counts := [("a", 1), ("b", 0)],
         newspaper_weights := [("a", ((1 : ℕ) : ℚ) / ((1 : ℕ) : ℚ)),
                               ("b", ((0 : ℕ) : ℚ) / ((1 : ℕ) : ℚ))] }] }

/-- A corpus in which no document has usable preprocessed text: one empty
string, one missing key. -/
def emptyTextArticles : List Article :=
  [{ article_id := some "e1", newspaper := some "b", preprocessed_text := some "" },
   { article_id := some "e2", newspaper := some "a" }]

/-- A backend set in which every discovery call fails. -/
def failingBackends : Backends :=
  { lda := fun _ _ => none
    nmf := fun _ _ => none
    bertopic := fun _ => none
    bertopic_available := false }

/-- A BERTopic topic-info table containing the reserved outlier row `-1`. -/
def sampleBerInfo : List BerRow :=
  [{ topic := -1, count := 5, words := ["noise"], weights := [1] },
   { topic := 0, count := 3, words := ["governo"], weights := [3] }]

/-- A backend set in which only BERTopic is available, returning the
filtered topics of `sampleBerInfo`. -/
def berBackends : Backends :=
  { lda := fun _ _ => none
    nmf := fun _ _ => none
    bertopic := fun _ => some (try_bertopic_topics sampleBerInfo)
    bertopic_available := true }

/-- Expected result of the BERTopic run: the outlier row is gone and no
document is assigned (assignments are discarded on this path). -/
def berResult : TopicResult :=
  { date := "2025-10-12", algorithm := "bertopic", num_articles := 2, num_topics := 1,
    topics :=
      [{ topic_id := 0, words := ["governo"], weights := [3], count := some 3,
         label := "Governo", articles := [],
         newspaper_counts := [("b", 0), ("a", 0)],
         newspaper_weights := [("b", ((0 : ℕ) : ℚ) / ((1 : ℕ) : ℚ)),
                               ("a", ((0 : ℕ) : ℚ) / ((1 : ℕ) : ℚ))] }] }

theorem process_some {today : String} {bk : Backends}
    {so : List String → List String} {articles : List Article}
    {alg : String} {n : Nat} {r : TopicResult} {arts2 : List Article}
    (h : process_articles_for_topics today bk so articles alg n = some (r, arts2)) :
    ∃ raw distsOpt,
      chooseBackend bk
        ((articles.filter hasText).map fun a => a.preprocessed_text.getD "") alg n
        = some (raw, distsOpt) ∧
      raw ≠ [] ∧
      arts2 = (match distsOpt with
               | some dists => assignGo dists 0 articles
               | none => articles) ∧
      r = { date := today, algorithm := alg, num_articles := articles.length,
            num_topics := raw.length,
            topics := raw.map (buildTopic
              (so (arts2.map fun a => a.newspaper.getD "")) arts2) } := by
  simp only [process_articles_for_topics] at h
  split at h
  · exact absurd h (by simp)
  · split at h
    · exact absurd h (by simp)
    · rename_i raw distsOpt heq
      split at h
      · exact absurd h (by simp)
      · rename_i hraw
        refine ⟨raw, distsOpt, heq, by simpa using hraw, ?_⟩
        obtain ⟨hr, ha⟩ := Prod.mk.injEq .. ▸ (Option.some.injEq .. ▸ h)
        subst ha
        constructor
        · rfl
        · rw [← hr]
          simp [List.length_map]

theorem assignGo_eq_one (dists : List (List ℚ)) (i : Nat) (a : Article)
    (rest : List Article) :
    assignGo dists i (a :: rest) = assignOne dists i a :: assignGo dists (i + 1) rest := by
  cases h : dists.get? i <;> simp [assignGo, assignOne, h]

theorem assignGo_length (dists : List (List ℚ)) (i : Nat) (l : List Article) :
    (assignGo dists i l).length = l.length := by
  induction l generalizing i with
  | nil => rfl
  | cons a rest ih => rw [assignGo_eq_one]; simp [ih]

theorem assignGo_get? (dists : List (List ℚ)) (i j : Nat) (l : List Article) :
    (assignGo dists i l).get? j = (l.get? j).map (assignOne dists (i + j)) := by
  induction l generalizing i j with
  | nil => rfl
  | cons a rest ih =>
    rw [assignGo_eq_one]
    cases j with
    | zero => simp
    | succ j' => simpa [Nat.add_assoc, Nat.add_comm 1 j'] using ih (i + 1) j'

theorem assignOne_sameBase (dists : List (List ℚ)) (i : Nat) (a : Article) :
    sameBase (assignOne dists i a) a := by
  simp only [sameBase, assignOne]
  cases dists.get? i <;> simp

theorem assignOne_of_get?_some {dists : List (List ℚ)} {i : Nat} {dd : List ℚ}
    (hdd : dists.get? i = some dd) (a : Article) :
    assignOne dists i a
      = { a with dominant_topic := some (Int.ofNat (npArgmax dd)),
                 topic_distribution := some dd } := by
  simp only [assignOne, hdd]

theorem assignOne_of_get?_none {dists : List (List ℚ)} {i : Nat}
    (hn : dists.get? i = none) (a : Article) :
    assignOne dists i a
      = { a with dominant_topic := some (-1), topic_distribution := some [] } := by
  simp only [assignOne, hn]

theorem npArgmax_cons₂ (x y : ℚ) (rest : List ℚ) :
    npArgmax (x :: y :: rest)
      = if x < (y :: rest).getD (npArgmax (y :: rest)) 0
        then npArgmax (y :: rest) + 1 else 0 := rfl

theorem npArgmax_spec (l : List ℚ) (h : l ≠ []) :
    npArgmax l < l.length ∧
    (∀ j, j < l.length → l.getD j 0 ≤ l.getD (npArgmax l) 0) ∧
    (∀ j, j < npArgmax l → l.getD j 0 < l.getD (npArgmax l) 0) := by
  induction l with
  | nil => exact absurd rfl h
  | cons x xs ih =>
    cases xs with
    | nil =>
      refine ⟨by simp [npArgmax], ?_, ?_⟩
      · intro j hj
        have hj0 : j = 0 := by simpa using hj
        subst hj0
        exact le_refl _
      · intro j hj
        exact absurd hj (by simp [npArgmax])
    | cons y rest =>
      obtain ⟨ih1, ih2, ih3⟩ := ih (by simp)
      rw [npArgmax_cons₂]
      by_cases hx : x < (y :: rest).getD (npArgmax (y :: rest)) 0
      · rw [if_pos hx]
        refine ⟨?_, ?_, ?_⟩
        · simp only [List.length_cons] at ih1 ⊢
          omega
        · intro j hj
          rw [List.getD_cons_succ]
          cases j with
          | zero => rw [List.getD_cons_zero]; exact le_of_lt hx
          | succ j' =>
            rw [List.getD_cons_succ]
            exact ih2 j' (by simpa using hj)
        · intro j hj
          rw [List.getD_cons_succ]
          cases j with
          | zero => rw [List.getD_cons_zero]; exact hx
          | succ j' =>
            rw [List.getD_cons_succ]
            exact ih3 j' (by omega)
      · rw [if_neg hx]
        push_neg at hx
        refine ⟨by simp, ?_, ?_⟩
        · intro j hj
          rw [List.getD_cons_zero]
          cases j with
          | zero => rw [List.getD_cons_zero]
          | succ j' =>
            rw [List.getD_cons_succ]
            exact le_trans (ih2 j' (by simpa using hj)) hx
        · intro j hj
          exact absurd hj (by omega)

theorem sameBase_refl (a : Article) : sameBase a a :=
  ⟨rfl, rfl, rfl, rfl, rfl, rfl⟩

theorem chooseBackend_eq_lda (bk : Backends) (texts : List String)
    (alg : String) (n : Nat) (h1 : alg ≠ "nmf")
    (h2 : alg = "bertopic" → bk.bertopic_available = false) :
    chooseBackend bk texts alg n = chooseBackend bk texts "lda" n := by
  have e1 : (alg == "nmf") = false := by simpa using h1
  by_cases hb : alg = "bertopic"
  · simp [chooseBackend, e1, hb, h2 hb]
  · have e2 : (alg == "bertopic") = false := by simpa using hb
    simp [chooseBackend, e1, e2]

theorem sampleRun_eq :
    process_articles_for_topics "2025-10-12" sampleBackends List.dedup sampleArticles "lda" 2
      = some (sampleResult, sampleMutated) := rfl

theorem sampleRunRev_eq :
    process_articles_for_topics "2025-10-12" sampleBackends (fun l => l.dedup.reverse)
      sampleArticles "lda" 2 = some (sampleResultRev, sampleMutated) := rfl

theorem berRun_eq :
    process_articles_for_topics "2025-10-12" berBackends List.dedup sampleArticles
      "bertopic" 2 = some (berResult, sampleArticles) := rfl

theorem filter_matching_le_one (ts : List Topic) (x : Option Int)
    (hnd : (ts.map Topic.topic_id).Nodup) :
    (ts.filter (fun t => x == some t.topic_id)).length ≤ 1 := by
  induction ts with
  | nil => simp
  | cons t ts ih =>
    rw [List.map_cons, List.nodup_cons] at hnd
    obtain ⟨hni, hnd'⟩ := hnd
    by_cases hx : (x == some t.topic_id) = true
    · have hrest : ts.filter (fun t' => x == some t'.topic_id) = [] := by
        rw [List.filter_eq_nil]
        intro t' ht' hmatch
        have e1 : x = some t.topic_id := by simpa using hx
        have e2 : x = some t'.topic_id := by simpa using hmatch
        have : t.topic_id = t'.topic_id := by
          rw [e1] at e2
          exact Option.some.injEq .. ▸ e2
        exact hni (this ▸ List.mem_map_of_mem Topic.topic_id ht')
      simp [List.filter_cons, hx, hrest]
    · have hx' : (x == some t.topic_id) = false := by simpa using hx
      simp only [List.filter_cons, hx', if_false]
      exact ih hnd'

theorem sum_filter_length_eq (l : List TopicEntry) (ns : List String)
    (hnd : ns.Nodup) (hcov : ∀ e ∈ l, e.newspaper ∈ ns) :
    (ns.map (fun np => (l.filter (fun e => e.newspaper == np)).length)).sum
      = l.length := by
  induction ns generalizing l with
  | nil =>
    cases l with
    | nil => simp
    | cons e l' => exact absurd (hcov e (List.mem_cons_self e l')) (by simp)
  | cons n ns ih =>
    rw [List.nodup_cons] at hnd
    obtain ⟨hnn, hnd'⟩ := hnd
    rw [List.map_cons, List.sum_cons]
    have hmap : ns.map (fun np => (l.filter (fun e => e.newspaper == np)).length)
        = ns.map (fun np =>
            (((l.filter (fun e => !(e.newspaper == n))).filter
              (fun e => e.newspaper == np))).length) := by
      refine List.map_congr_left ?_
      intro m hm
      rw [List.filter_filter]
      have hmn : m ≠ n := fun hEq => hnn (hEq ▸ hm)
      congr 1
      refine List.filter_congr ?_
      intro e _
      by_cases hEq : e.newspaper = m
      · have h1 : (e.newspaper == m) = true := by simpa using hEq
        have h2 : (e.newspaper == n) = false := by
          rw [hEq]
          simpa using hmn
        rw [h1, h2]
        rfl
      · have h1 : (e.newspaper == m) = false := by simpa using hEq
        rw [h1]
        rfl
    rw [hmap]
    have hcov2 : ∀ e ∈ l.filter (fun e => !(e.newspaper == n)), e.newspaper ∈ ns := by
      intro e he
      rw [List.mem_filter] at he
      obtain ⟨hel, hne⟩ := he
      have := hcov e hel
      rw [List.mem_cons] at this
      cases this with
      | inl hEq => simp [hEq] at hne
      | inr hmem => exact hmem
    rw [ih _ hnd' hcov2]
    have hlen := List.length_eq_countP_add_countP (fun e => e.newspaper == n) l
    rw [List.countP_eq_length_filter, List.countP_eq_length_filter] at hlen
    have hsame : l.filter (fun a => decide ¬(a.newspaper == n) = true)
        = l.filter (fun e => !(e.newspaper == n)) := by
      refine List.filter_congr ?_
      intro e _
      cases (e.newspaper == n) <;> simp
    rw [hsame] at hlen
    omega

theorem assignOne_newspaper (dists : List (List ℚ)) (i : Nat) (a : Article) :
    (assignOne dists i a).newspaper = a.newspaper := by
  cases h : dists.get? i with
  | none => rw [assignOne_of_get?_none h]
  | some dd => rw [assignOne_of_get?_some h]

theorem assignGo_newspaper_mem (dists : List (List ℚ)) :
    ∀ (i : Nat) (l : List Article), ∀ a ∈ assignGo dists i l,
      ∃ b ∈ l, a.newspaper = b.newspaper := by
  intro i l
  induction l generalizing i with
  | nil => intro a ha; exact absurd ha (by simp [assignGo])
  | cons b rest ih =>
    intro a ha
    rw [assignGo_eq_one, List.mem_cons] at ha
    cases ha with
    | inl hEq =>
      exact ⟨b, List.mem_cons_self b rest, hEq ▸ assignOne_newspaper dists i b⟩
    | inr hmem =>
      obtain ⟨b', hb', hEq⟩ := ih (i + 1) a hmem
      exact ⟨b', List.mem_cons_of_mem b hb', hEq⟩

theorem arts2_newspaper_isSome
    {today : String} {bk : Backends} {so : List String → List String}
    {articles : List Article} {alg : String} {n : Nat}
    {r : TopicResult} {arts2 : List Article}
    (h : process_articles_for_topics today bk so articles alg n = some (r, arts2))
    (hnp : ∀ a ∈ articles, a.newspaper.isSome = true) :
    ∀ a ∈ arts2, a.newspaper.isSome = true := by
  obtain ⟨raw, distsOpt, hcb, hraw, ha, hr⟩ := process_some h
  cases distsOpt with
  | none =>
    have ha' : arts2 = articles := ha
    subst ha'
    exact hnp
  | some dists =>
    have ha' : arts2 = assignGo dists 0 articles := ha
    subst ha'
    intro a hamem
    obtain ⟨b, hb, hEq⟩ := assignGo_newspaper_mem dists 0 articles a hamem
    rw [hEq]
    exact hnp b hb

theorem count_le_total (arts2 : List Article) (tid : Int) (s : String)
    (hnp2 : ∀ a ∈ arts2, a.newspaper.isSome = true) :
    (((arts2.filter (fun a' => a'.dominant_topic == some tid)).map topicEntryOf).filter
        (fun e => e.newspaper == s)).length
      ≤ (arts2.filter (fun a => a.newspaper == some s)).length := by
  rw [← List.countP_eq_length_filter, ← List.countP_eq_length_filter,
    List.countP_map, List.countP_filter]
  refine List.countP_mono_left ?_
  intro a hamem hcond
  obtain ⟨v, hv⟩ := Option.isSome_iff_exists.mp (hnp2 a hamem)
  simp only [Function.comp, Bool.and_eq_true] at hcond
  have h1 : ((topicEntryOf a).newspaper == s) = true := hcond.1
  have h2 : (topicEntryOf a).newspaper = v := by
    simp [topicEntryOf, hv]
  have h3 : v = s := by
    rw [h2] at h1
    simpa using h1
  simp [hv, h3]

/-- C9: the composed result records the pre-filtering input size. -/
theorem result_num_articles_eq_input_length
    (today : String) (bk : Backends) (so : List String → List String)
    (articles : List Article) (alg : String) (n : Nat)
    (r : TopicResult) (arts2 : List Article)
    (h : process_articles_for_topics today bk so articles alg n = some (r, arts2)) :
    r.num_articles = articles.length := by
  obtain ⟨raw, distsOpt, _, _, _, hr⟩ := process_some h
  rw [hr]

theorem result_num_articles_eq_input_length_witness :
    sampleResult.num_articles = sampleArticles.length :=
  result_num_articles_eq_input_length "2025-10-12" sampleBackends List.dedup
    sampleArticles "lda" 2 sampleResult sampleMutated sampleRun_eq

/-- C10: any algorithm string other than `'nmf'` — and `'bertopic'` when the
library is unavailable — runs the LDA backend, while the result's
`algorithm` field records the caller's requested string. -/
theorem fallback_runs_lda_records_requested
    (today : String) (bk : Backends) (so : List String → List String)
    (articles : List Article) (alg : String) (n : Nat)
    (h1 : alg ≠ "nmf")
    (h2 : alg = "bertopic" → bk.bertopic_available = false) :
    process_articles_for_topics today bk so articles alg n
      = (process_articles_for_topics today bk so articles "lda" n).map
          (fun p => ({ p.1 with algorithm := alg }, p.2)) := by
  simp only [process_articles_for_topics]
  split
  · rfl
  · rw [chooseBackend_eq_lda bk _ alg n h1 h2]
    cases hcb : chooseBackend bk _ "lda" n with
    | none => rfl
    | some p =>
      obtain ⟨raw, distsOpt⟩ := p
      by_cases hraw : raw.isEmpty
      · simp [hraw]
      · simp [hraw]

theorem fallback_runs_lda_records_requested_witness :
    process_articles_for_topics "2025-10-12" sampleBackends List.dedup sampleArticles
        "gibberish" 2
      = (process_articles_for_topics "2025-10-12" sampleBackends List.dedup sampleArticles
          "lda" 2).map (fun p => ({ p.1 with algorithm := "gibberish" }, p.2)) :=
  fallback_runs_lda_records_requested "2025-10-12" sampleBackends List.dedup
    sampleArticles "gibberish" 2 (by decide) (fun hx => absurd hx (by decide))

/-- C2 (counterexample): on a concrete corpus the post-call article list
differs from the input list — `process_articles_for_topics` writes
`dominant_topic`/`topic_distribution` into the caller's article
dictionaries instead of a copy or side table. -/
theorem process_mutates_input_articles_cex :
    (process_articles_for_topics "2025-10-12" sampleBackends List.dedup sampleArticles
        "lda" 2).map Prod.snd = some sampleMutated ∧
    sampleMutated ≠ sampleArticles ∧
    (sampleMutated.get? 0).map (fun a => a.dominant_topic) = some (some 0) ∧
    (sampleArticles.get? 0).map (fun a => a.dominant_topic) = some none := by
  refine ⟨?_, by decide, by decide, by decide⟩
  rw [sampleRun_eq]
  rfl

/-- C2 (amended): the assignment loop mutates the shared input articles in
place, but only by writing the derived keys `dominant_topic` and
`topic_distribution`; every other field of every article is unchanged
after the call. -/
theorem process_preserves_base_fields
    (today : String) (bk : Backends) (so : List String → List String)
    (articles : List Article) (alg : String) (n : Nat)
    (r : TopicResult) (arts2 : List Article)
    (h : process_articles_for_topics today bk so articles alg n = some (r, arts2)) :
    arts2.length = articles.length ∧
    ∀ j (h2 : j < arts2.length) (h1 : j < articles.length),
      sameBase (arts2.get ⟨j, h2⟩) (articles.get ⟨j, h1⟩) := by
  obtain ⟨raw, distsOpt, hcb, hraw, ha, hr⟩ := process_some h
  cases distsOpt with
  | none =>
    have ha' : arts2 = articles := ha
    subst ha'
    exact ⟨rfl, fun j h2 h1 => sameBase_refl _⟩
  | some dists =>
    have ha' : arts2 = assignGo dists 0 articles := ha
    subst ha'
    refine ⟨assignGo_length dists 0 articles, ?_⟩
    intro j h2 h1
    have hg : (assignGo dists 0 articles).get? j
        = some ((assignGo dists 0 articles).get ⟨j, h2⟩) := List.get?_eq_get h2
    have hg2 := assignGo_get? dists 0 j articles
    rw [List.get?_eq_get h1, hg] at hg2
    simp only [Option.map_some'] at hg2
    rw [Option.some.injEq] at hg2
    rw [hg2]
    exact assignOne_sameBase dists (0 + j) _

theorem process_preserves_base_fields_witness :
    sampleMutated.length = sampleArticles.length ∧
    ∀ j (h2 : j < sampleMutated.length) (h1 : j < sampleArticles.length),
      sameBase (sampleMutated.get ⟨j, h2⟩) (sampleArticles.get ⟨j, h1⟩) :=
  process_preserves_base_fields "2025-10-12" sampleBackends List.dedup sampleArticles
    "lda" 2 sampleResult sampleMutated sampleRun_eq

/-- C1 (counterexample): two admissible iteration orders of the same source
set give different composed results — the source order inside
`newspaper_counts`/`newspaper_weights` is the `list(set(...))` iteration
order of line 235, not a sorted order: on the sample corpus it is
`["b", "a"]`, which is not lexically ascending. -/
theorem newspaper_order_not_sorted_cex :
    List.Perm (List.dedup ["b", "a"]) (List.dedup ["b", "a"]).reverse ∧
    (process_articles_for_topics "2025-10-12" sampleBackends List.dedup sampleArticles
        "lda" 2
      ≠ process_articles_for_topics "2025-10-12" sampleBackends
          (fun l => l.dedup.reverse) sampleArticles "lda" 2) ∧
    ((process_articles_for_topics "2025-10-12" sampleBackends List.dedup sampleArticles
        "lda" 2).map (fun p => p.1.topics.map (fun t => t.newspaper_counts.map Prod.fst)))
      = some [["b", "a"], ["b", "a"]] := by
  refine ⟨by decide, ?_, ?_⟩
  · rw [sampleRun_eq, sampleRunRev_eq]
    decide
  · rw [sampleRun_eq]
    rfl

/-- C1 (amended): the result is a pure function of the inputs and of the
source-set enumeration: every topic emits `newspaper_counts` and
`newspaper_weights` keyed exactly in the enumeration order produced by
`setOrder` (Python's set iteration order), so for a fixed enumeration the
result is reproducible, but the emission order follows the enumeration —
it is sorted only if the enumeration is, and topics keep backend order. -/
theorem newspaper_order_follows_set_order
    (today : String) (bk : Backends) (so : List String → List String)
    (articles : List Article) (alg : String) (n : Nat)
    (r : TopicResult) (arts2 : List Article)
    (h : process_articles_for_topics today bk so articles alg n = some (r, arts2)) :
    ∀ t ∈ r.topics,
      t.newspaper_counts.map Prod.fst = so (arts2.map fun a => a.newspaper.getD "") ∧
      t.newspaper_weights.map Prod.fst = so (arts2.map fun a => a.newspaper.getD "") := by
  obtain ⟨raw, distsOpt, hcb, hraw, ha, hr⟩ := process_some h
  subst hr
  intro t ht
  simp only [List.mem_map] at ht
  obtain ⟨rt, _, rfl⟩ := ht
  constructor <;> simp [buildTopic, List.map_map, Function.comp_def]

theorem newspaper_order_follows_set_order_witness :
    (sampleResult.topics.get ⟨0, by decide⟩).newspaper_counts.map Prod.fst
        = List.dedup (sampleMutated.map fun a => a.newspaper.getD "") ∧
    (sampleResult.topics.get ⟨0, by decide⟩).newspaper_weights.map Prod.fst
        = List.dedup (sampleMutated.map fun a => a.newspaper.getD "") :=
  newspaper_order_follows_set_order "2025-10-12" sampleBackends List.dedup sampleArticles
    "lda" 2 sampleResult sampleMutated sampleRun_eq
    (sampleResult.topics.get ⟨0, by decide⟩) (List.get_mem _ _ _)

/-- C7: whenever an article carries a non-empty assigned distribution, its
dominant topic is the first arg-max index of that distribution: a maximal
entry whose every strictly-earlier entry is strictly smaller, so ties are
broken toward the lowest topic index (= lowest topic_id for the dense
LDA/NMF topic numbering). -/
theorem dominant_topic_is_first_argmax
    (today : String) (bk : Backends) (so : List String → List String)
    (articles : List Article) (alg : String) (n : Nat)
    (r : TopicResult) (arts2 : List Article)
    (h : process_articles_for_topics today bk so articles alg n = some (r, arts2))
    (hfresh : ∀ a ∈ articles, a.topic_distribution = none) :
    ∀ j (hj : j < arts2.length) (d : List ℚ),
      (arts2.get ⟨j, hj⟩).topic_distribution = some d → d ≠ [] →
      (arts2.get ⟨j, hj⟩).dominant_topic = some (Int.ofNat (npArgmax d)) ∧
      npArgmax d < d.length ∧
      (∀ k, k < d.length → d.getD k 0 ≤ d.getD (npArgmax d) 0) ∧
      (∀ k, k < npArgmax d → d.getD k 0 < d.getD (npArgmax d) 0) := by
  obtain ⟨raw, distsOpt, hcb, hraw, ha, hr⟩ := process_some h
  intro j hj d hd hne
  cases distsOpt with
  | none =>
    have ha' : arts2 = articles := ha
    subst ha'
    have hmem : arts2.get ⟨j, hj⟩ ∈ arts2 := List.get_mem _ _ _
    rw [hfresh _ hmem] at hd
    exact absurd hd (by simp)
  | some dists =>
    have ha' : arts2 = assignGo dists 0 articles := ha
    have hlen : j < articles.length := by
      rw [ha', assignGo_length] at hj
      exact hj
    have hg : arts2.get? j = some (arts2.get ⟨j, hj⟩) := List.get?_eq_get hj
    have hg2 := assignGo_get? dists 0 j articles
    rw [← ha', hg, List.get?_eq_get hlen] at hg2
    simp only [Option.map_some'] at hg2
    rw [Option.some.injEq] at hg2
    rw [hg2] at hd ⊢
    cases hdi : dists.get? (0 + j) with
    | none =>
      rw [assignOne_of_get?_none hdi] at hd
      simp only at hd
      rw [Option.some.injEq] at hd
      exact absurd hd.symm hne
    | some dd =>
      rw [assignOne_of_get?_some hdi] at hd ⊢
      simp only at hd ⊢
      rw [Option.some.injEq] at hd
      subst hd
      obtain ⟨h1, h2, h3⟩ := npArgmax_spec dd hne
      exact ⟨rfl, h1, h2, h3⟩

theorem dominant_topic_is_first_argmax_witness :
    (sampleMutated.get ⟨0, by decide⟩).dominant_topic
        = some (Int.ofNat (npArgmax [7, 3])) ∧
    npArgmax [7, 3] < ([7, 3] : List ℚ).length ∧
    (∀ k, k < ([7, 3] : List ℚ).length →
      ([7, 3] : List ℚ).getD k 0 ≤ ([7, 3] : List ℚ).getD (npArgmax [7, 3]) 0) ∧
    (∀ k, k < npArgmax [7, 3] →
      ([7, 3] : List ℚ).getD k 0 < ([7, 3] : List ℚ).getD (npArgmax [7, 3]) 0) :=
  dominant_topic_is_first_argmax "2025-10-12" sampleBackends List.dedup sampleArticles
    "lda" 2 sampleResult sampleMutated sampleRun_eq (by decide) 0 (by decide) [7, 3]
    rfl (by decide)

/-- C4 (counterexample): the empty-corpus failure is not a typed
`EmptyCorpus` value — the pipeline returns the very same untyped `None`
(and persists nothing) that it returns for a backend failure on a usable
corpus, so the caller cannot tell the two failures apart. -/
theorem empty_corpus_failure_untyped_cex :
    process_single_day "2025-10-12" sampleBackends List.dedup emptyTextArticles
        "lda" 2 = (none, none) ∧
    process_single_day "2025-10-12" failingBackends List.dedup sampleArticles
        "lda" 2 = (none, none) := by
  exact ⟨rfl, rfl⟩

/-- C4 (amended): if zero documents remain after empty-text filtering, the
pipeline fails by returning `None` — not a crash and not a silent success —
and `process_single_day` persists nothing for that run; the failure value
is untyped (indistinguishable from a backend failure). -/
theorem empty_corpus_returns_none_nothing_persisted
    (today : String) (bk : Backends) (so : List String → List String)
    (articles : List Article) (alg : String) (n : Nat)
    (hempty : ∀ a ∈ articles, hasText a = false) :
    process_articles_for_topics today bk so articles alg n = none ∧
    process_single_day today bk so articles alg n = (none, none) := by
  have htexts : articles.filter hasText = [] := by
    rw [List.filter_eq_nil]
    intro a ha
    simp [hempty a ha]
  have hnone : process_articles_for_topics today bk so articles alg n = none := by
    simp [process_articles_for_topics, htexts]
  exact ⟨hnone, by simp [process_single_day, hnone]⟩

theorem empty_corpus_returns_none_nothing_persisted_witness :
    process_articles_for_topics "2025-10-12" sampleBackends List.dedup emptyTextArticles
        "lda" 2 = none ∧
    process_single_day "2025-10-12" sampleBackends List.dedup emptyTextArticles
        "lda" 2 = (none, none) :=
  empty_corpus_returns_none_nothing_persisted "2025-10-12" sampleBackends List.dedup
    emptyTextArticles "lda" 2 (by decide)

/-- C3: once the backend result is in, every article is in exactly one of
the two states: it contributes to exactly one topic's article list (the
unique topic matching its `dominant_topic`), or to none (unassigned) —
never both; and an article whose index falls outside the returned
distribution matrix is marked `-1`, hence unassigned (for canonical,
non-negative topic ids), with no index fault. -/
theorem assignment_exactly_one_state
    (today : String) (bk : Backends) (so : List String → List String)
    (articles : List Article) (alg : String) (n : Nat)
    (r : TopicResult) (arts2 : List Article)
    (h : process_articles_for_topics today bk so articles alg n = some (r, arts2))
    (hnd : (r.topics.map Topic.topic_id).Nodup) :
    (∀ a ∈ arts2, (assignedTopics r a).length ≤ 1) ∧
    (∀ a ∈ arts2, (assignedTopics r a).length = 1 ∨ (assignedTopics r a).length = 0) ∧
    (∀ t ∈ r.topics, ∀ a ∈ arts2, t ∈ assignedTopics r a → topicEntryOf a ∈ t.articles) ∧
    (∀ raw0 dists,
      chooseBackend bk ((articles.filter hasText).map fun a => a.preprocessed_text.getD "")
          alg n = some (raw0, some dists) →
      ∀ j (hj : j < arts2.length), dists.length ≤ j →
        (arts2.get ⟨j, hj⟩).dominant_topic = some (-1) ∧
        ((∀ t ∈ r.topics, (0 : Int) ≤ t.topic_id) →
          assignedTopics r (arts2.get ⟨j, hj⟩) = [])) := by
  obtain ⟨raw, distsOpt, hcb, hraw, ha, hr⟩ := process_some h
  refine ⟨?_, ?_, ?_, ?_⟩
  · intro a _
    exact filter_matching_le_one r.topics a.dominant_topic hnd
  · intro a hamem
    have := filter_matching_le_one r.topics a.dominant_topic hnd
    unfold assignedTopics at this ⊢
    omega
  · intro t ht a hamem htin
    unfold assignedTopics at htin
    rw [List.mem_filter] at htin
    obtain ⟨-, hmatch⟩ := htin
    have hr_topics : r.topics
        = raw.map (buildTopic (so (arts2.map fun x => x.newspaper.getD "")) arts2) := by
      rw [hr]
    rw [hr_topics, List.mem_map] at ht
    obtain ⟨rt, -, hteq⟩ := ht
    have hart : t.articles
        = (arts2.filter (fun a' => a'.dominant_topic == some rt.topic_id)).map
            topicEntryOf := by
      rw [← hteq]
      simp [buildTopic]
    have hid : t.topic_id = rt.topic_id := by
      rw [← hteq]
      simp [buildTopic]
    rw [hart]
    refine List.mem_map_of_mem topicEntryOf (List.mem_filter.mpr ⟨hamem, ?_⟩)
    rw [← hid]
    exact hmatch
  · intro raw0 dists hcb2 j hj hout
    rw [hcb2] at hcb
    rw [Option.some.injEq, Prod.mk.injEq] at hcb
    obtain ⟨hraw_eq, hdist_eq⟩ := hcb
    rw [← hdist_eq] at ha
    have ha' : arts2 = assignGo dists 0 articles := ha
    have hlen : j < articles.length := by
      rw [ha', assignGo_length] at hj
      exact hj
    have hg : arts2.get? j = some (arts2.get ⟨j, hj⟩) := List.get?_eq_get hj
    have hg2 := assignGo_get? dists 0 j articles
    rw [← ha', hg, List.get?_eq_get hlen] at hg2
    simp only [Option.map_some'] at hg2
    rw [Option.some.injEq] at hg2
    have hnone : dists.get? (0 + j) = none := by
      rw [List.get?_eq_none]
      omega
    rw [hg2, assignOne_of_get?_none hnone]
    refine ⟨rfl, ?_⟩
    intro hpos
    unfold assignedTopics
    rw [List.filter_eq_nil]
    intro t ht hmatch
    have : ((-1 : Int)) = t.topic_id := by simpa using hmatch
    have := hpos t ht
    omega

theorem assignment_exactly_one_state_witness :
    (∀ a ∈ sampleMutated, (assignedTopics sampleResult a).length ≤ 1) ∧
    (∀ a ∈ sampleMutated, (assignedTopics sampleResult a).length = 1 ∨
      (assignedTopics sampleResult a).length = 0) ∧
    (∀ t ∈ sampleResult.topics, ∀ a ∈ sampleMutated,
      t ∈ assignedTopics sampleResult a → topicEntryOf a ∈ t.articles) ∧
    (∀ raw0 dists,
      chooseBackend sampleBackends
          ((sampleArticles.filter hasText).map fun a => a.preprocessed_text.getD "")
          "lda" 2 = some (raw0, some dists) →
      ∀ j (hj : j < sampleMutated.length), dists.length ≤ j →
        (sampleMutated.get ⟨j, hj⟩).dominant_topic = some (-1) ∧
        ((∀ t ∈ sampleResult.topics, (0 : Int) ≤ t.topic_id) →
          assignedTopics sampleResult (sampleMutated.get ⟨j, hj⟩) = [])) :=
  assignment_exactly_one_state "2025-10-12" sampleBackends List.dedup sampleArticles
    "lda" 2 sampleResult sampleMutated sampleRun_eq (by decide)

/-- C8: when the (available) BERTopic backend is selected, the reserved
outlier label `-1` never appears as a `topic_id` of the composed result,
and — the per-document assignments being discarded on this path — fresh
input documents (in particular any the backend put in the outlier
cluster) contribute to no topic's article list, i.e. end up unassigned. -/
theorem outlier_label_excluded
    (today : String) (bk : Backends) (so : List String → List String)
    (articles : List Article) (n : Nat) (info : List BerRow)
    (r : TopicResult) (arts2 : List Article)
    (hB : bk.bertopic ((articles.filter hasText).map fun a => a.preprocessed_text.getD "")
            = some (try_bertopic_topics info))
    (havail : bk.bertopic_available = true)
    (hdom : ∀ a ∈ articles, a.dominant_topic = none)
    (h : process_articles_for_topics today bk so articles "bertopic" n = some (r, arts2)) :
    (∀ t ∈ r.topics, t.topic_id ≠ -1) ∧ (∀ t ∈ r.topics, t.articles = []) := by
  obtain ⟨raw, distsOpt, hcb, hraw, ha, hr⟩ := process_some h
  rw [show chooseBackend bk
        ((articles.filter hasText).map fun a => a.preprocessed_text.getD "") "bertopic" n
      = (bk.bertopic ((articles.filter hasText).map fun a =>
          a.preprocessed_text.getD "")).map (fun t => (t, none)) from by
        simp [chooseBackend, havail], hB] at hcb
  simp only [Option.map_some'] at hcb
  rw [Option.some.injEq, Prod.mk.injEq] at hcb
  obtain ⟨hraw_eq, hdist_eq⟩ := hcb
  rw [← hdist_eq] at ha
  have ha' : arts2 = articles := ha
  subst ha'
  have hr_topics : r.topics
      = raw.map (buildTopic (so (arts2.map fun x => x.newspaper.getD "")) arts2) := by
    rw [hr]
  constructor
  · intro t ht
    rw [hr_topics, List.mem_map] at ht
    obtain ⟨rt, hrt, hteq⟩ := ht
    have hid : t.topic_id = rt.topic_id := by
      rw [← hteq]
      simp [buildTopic]
    rw [← hraw_eq] at hrt
    unfold try_bertopic_topics at hrt
    rw [List.mem_map] at hrt
    obtain ⟨row, hrow, hrteq⟩ := hrt
    rw [List.mem_filter] at hrow
    have hne : row.topic ≠ -1 := by simpa using hrow.2
    rw [hid, ← hrteq]
    exact hne
  · intro t ht
    rw [hr_topics, List.mem_map] at ht
    obtain ⟨rt, hrt, hteq⟩ := ht
    have hart : t.articles
        = (arts2.filter (fun a' => a'.dominant_topic == some rt.topic_id)).map
            topicEntryOf := by
      rw [← hteq]
      simp [buildTopic]
    rw [hart]
    have : arts2.filter (fun a' => a'.dominant_topic == some rt.topic_id) = [] := by
      rw [List.filter_eq_nil]
      intro a hamem hmatch
      rw [hdom a hamem] at hmatch
      simp at hmatch
    rw [this]
    rfl

theorem outlier_label_excluded_witness :
    (∀ t ∈ berResult.topics, t.topic_id ≠ -1) ∧
    (∀ t ∈ berResult.topics, t.articles = []) :=
  outlier_label_excluded "2025-10-12" berBackends List.dedup sampleArticles 2
    sampleBerInfo berResult sampleArticles rfl rfl (by decide) berRun_eq

/-- C5: the (topic × source) matrix is complete: for every topic of the
composed result and every source value observed anywhere in the (post-call)
corpus there is a `newspaper_counts` entry and a `newspaper_weights`
entry for that source; a source with no article in the topic gets count 0
and weight 0 (the default cell); and, per topic, the counts summed over
all sources equal the number of articles assigned to that topic. -/
theorem source_topic_matrix_complete
    (today : String) (bk : Backends) (so : List String → List String)
    (articles : List Article) (alg : String) (n : Nat)
    (r : TopicResult) (arts2 : List Article)
    (h : process_articles_for_topics today bk so articles alg n = some (r, arts2))
    (hso_mem : ∀ x, x ∈ so (arts2.map fun a => a.newspaper.getD "")
      ↔ x ∈ arts2.map fun a => a.newspaper.getD "")
    (hso_nd : (so (arts2.map fun a => a.newspaper.getD "")).Nodup) :
    ∀ t ∈ r.topics,
      (∀ s ∈ arts2.map (fun a => a.newspaper.getD ""),
        ∃ c w, (s, c) ∈ t.newspaper_counts ∧ (s, w) ∈ t.newspaper_weights ∧
          ((∀ e ∈ t.articles, e.newspaper ≠ s) → c = 0 ∧ w = 0)) ∧
      (t.newspaper_counts.map Prod.snd).sum = t.articles.length := by
  obtain ⟨raw, distsOpt, hcb, hraw, ha, hr⟩ := process_some h
  have hr_topics : r.topics
      = raw.map (buildTopic (so (arts2.map fun x => x.newspaper.getD "")) arts2) := by
    rw [hr]
  intro t ht
  rw [hr_topics, List.mem_map] at ht
  obtain ⟨rt, hrt, hteq⟩ := ht
  have hart : t.articles
      = (arts2.filter (fun a' => a'.dominant_topic == some rt.topic_id)).map
          topicEntryOf := by
    rw [← hteq]
    simp [buildTopic]
  have hcounts : t.newspaper_counts
      = (so (arts2.map fun x => x.newspaper.getD "")).map
          (fun np => (np, (t.articles.filter (fun e => e.newspaper == np)).length)) := by
    have h0 : t.newspaper_counts
        = (so (arts2.map fun x => x.newspaper.getD "")).map
            (fun np => (np, (((arts2.filter (fun a' =>
                a'.dominant_topic == some rt.topic_id)).map topicEntryOf).filter
              (fun e => e.newspaper == np)).length)) := by
      rw [← hteq]
      simp [buildTopic]
    rw [← hart] at h0
    exact h0
  have hweights : t.newspaper_weights
      = (so (arts2.map fun x => x.newspaper.getD "")).map
          (fun np =>
            (np, if 0 < (arts2.filter (fun a => a.newspaper == some np)).length
                 then ((t.articles.filter (fun e => e.newspaper == np)).length : ℚ)
                    / ((arts2.filter (fun a => a.newspaper == some np)).length : ℚ)
                 else 0)) := by
    have h0 : t.newspaper_weights
        = (so (arts2.map fun x => x.newspaper.getD "")).map
            (fun np =>
              (np, if 0 < (arts2.filter (fun a => a.newspaper == some np)).length
                   then ((((arts2.filter (fun a' =>
                        a'.dominant_topic == some rt.topic_id)).map topicEntryOf).filter
                      (fun e => e.newspaper == np)).length : ℚ)
                      / ((arts2.filter (fun a => a.newspaper == some np)).length : ℚ)
                   else 0)) := by
      rw [← hteq]
      simp [buildTopic]
    rw [← hart] at h0
    exact h0
  constructor
  · intro s hs
    have hsin : s ∈ so (arts2.map fun a => a.newspaper.getD "") := (hso_mem s).mpr hs
    refine ⟨(t.articles.filter (fun e => e.newspaper == s)).length,
      (if 0 < (arts2.filter (fun a => a.newspaper == some s)).length
       then ((t.articles.filter (fun e => e.newspaper == s)).length : ℚ)
          / ((arts2.filter (fun a => a.newspaper == some s)).length : ℚ)
       else 0), ?_, ?_, ?_⟩
    · rw [hcounts]
      exact List.mem_map_of_mem _ hsin
    · rw [hweights]
      exact List.mem_map_of_mem _ hsin
    · intro hnone
      have hfil : t.articles.filter (fun e => e.newspaper == s) = [] := by
        rw [List.filter_eq_nil]
        intro e he hbeq
        exact hnone e he (by simpa using hbeq)
      rw [hfil]
      refine ⟨rfl, ?_⟩
      split
      · simp
      · rfl
  · rw [hcounts, List.map_map]
    have hcomp : (Prod.snd ∘ fun np =>
        (np, (t.articles.filter (fun e => e.newspaper == np)).length))
      = fun np => (t.articles.filter (fun e => e.newspaper == np)).length := rfl
    rw [hcomp]
    refine sum_filter_length_eq _ _ hso_nd ?_
    intro e he
    rw [hart, List.mem_map] at he
    obtain ⟨a, ha2, hEq⟩ := he
    rw [List.mem_filter] at ha2
    rw [hso_mem, List.mem_map]
    exact ⟨a, ha2.1, by rw [← hEq]; rfl⟩

theorem source_topic_matrix_complete_witness :
    (∃ c w,
      ("b", c) ∈ (sampleResult.topics.get ⟨0, by decide⟩).newspaper_counts ∧
      ("b", w) ∈ (sampleResult.topics.get ⟨0, by decide⟩).newspaper_weights ∧
      ((∀ e ∈ (sampleResult.topics.get ⟨0, by decide⟩).articles, e.newspaper ≠ "b") →
        c = 0 ∧ w = 0)) ∧
    ((sampleResult.topics.get ⟨0, by decide⟩).newspaper_counts.map Prod.snd).sum
      = (sampleResult.topics.get ⟨0, by decide⟩).articles.length := by
  have h := source_topic_matrix_complete "2025-10-12" sampleBackends List.dedup
    sampleArticles "lda" 2 sampleResult sampleMutated sampleRun_eq
    (fun _ => List.mem_dedup) (List.nodup_dedup _)
    (sampleResult.topics.get ⟨0, by decide⟩) (List.get_mem _ _ _)
  exact ⟨h.1 "b" (by decide), h.2⟩

/-- C6: every stored `newspaper_weights` entry is paired positionally with
the `newspaper_counts` entry for the same source; when the source
contributed a positive number of (key-carrying) documents the weight is
exactly count divided by that total, it is 0 when the total is 0 (guarded,
no division fault), and it always lies in [0, 1]. Inputs are required to
carry a `newspaper` key, as the spec requires a `source_id` on every
document; without that requirement the count and the total are taken over
different keys (lines 242 vs 246) and the bound fails. -/
theorem proportion_spec
    (today : String) (bk : Backends) (so : List String → List String)
    (articles : List Article) (alg : String) (n : Nat)
    (r : TopicResult) (arts2 : List Article)
    (h : process_articles_for_topics today bk so articles alg n = some (r, arts2))
    (hnp : ∀ a ∈ articles, a.newspaper.isSome = true) :
    ∀ t ∈ r.topics, ∀ i (sw : String × ℚ),
      t.newspaper_weights.get? i = some sw →
      ∃ c, t.newspaper_counts.get? i = some (sw.1, c) ∧
        (0 < (arts2.filter (fun a => a.newspaper == some sw.1)).length →
          sw.2 = (c : ℚ)
            / ((arts2.filter (fun a => a.newspaper == some sw.1)).length : ℚ)) ∧
        ((arts2.filter (fun a => a.newspaper == some sw.1)).length = 0 → sw.2 = 0) ∧
        0 ≤ sw.2 ∧ sw.2 ≤ 1 := by
  obtain ⟨raw, distsOpt, hcb, hraw, ha, hr⟩ := process_some h
  have hnp2 : ∀ a ∈ arts2, a.newspaper.isSome = true := arts2_newspaper_isSome h hnp
  have hr_topics : r.topics
      = raw.map (buildTopic (so (arts2.map fun x => x.newspaper.getD "")) arts2) := by
    rw [hr]
  intro t ht i sw hsw
  rw [hr_topics, List.mem_map] at ht
  obtain ⟨rt, hrt, hteq⟩ := ht
  have hart : t.articles
      = (arts2.filter (fun a' => a'.dominant_topic == some rt.topic_id)).map
          topicEntryOf := by
    rw [← hteq]
    simp [buildTopic]
  have hcounts : t.newspaper_counts
      = (so (arts2.map fun x => x.newspaper.getD "")).map
          (fun np => (np, (t.articles.filter (fun e => e.newspaper == np)).length)) := by
    have h0 : t.newspaper_counts
        = (so (arts2.map fun x => x.newspaper.getD "")).map
            (fun np => (np, (((arts2.filter (fun a' =>
                a'.dominant_topic == some rt.topic_id)).map topicEntryOf).filter
              (fun e => e.newspaper == np)).length)) := by
      rw [← hteq]
      simp [buildTopic]
    rw [← hart] at h0
    exact h0
  have hweights : t.newspaper_weights
      = (so (arts2.map fun x => x.newspaper.getD "")).map
          (fun np =>
            (np, if 0 < (arts2.filter (fun a => a.newspaper == some np)).length
                 then ((t.articles.filter (fun e => e.newspaper == np)).length : ℚ)
                    / ((arts2.filter (fun a => a.newspaper == some np)).length : ℚ)
                 else 0)) := by
    have h0 : t.newspaper_weights
        = (so (arts2.map fun x => x.newspaper.getD "")).map
            (fun np =>
              (np, if 0 < (arts2.filter (fun a => a.newspaper == some np)).length
                   then ((((arts2.filter (fun a' =>
                        a'.dominant_topic == some rt.topic_id)).map topicEntryOf).filter
                      (fun e => e.newspaper == np)).length : ℚ)
                      / ((arts2.filter (fun a => a.newspaper == some np)).length : ℚ)
                   else 0)) := by
      rw [← hteq]
      simp [buildTopic]
    rw [← hart] at h0
    exact h0
  rw [hweights, List.get?_map, Option.map_eq_some'] at hsw
  obtain ⟨np, hnp_get, hnpeq⟩ := hsw
  have hfst : sw.1 = np := by rw [← hnpeq]
  have hsnd : sw.2
      = if 0 < (arts2.filter (fun a => a.newspaper == some np)).length
        then ((t.articles.filter (fun e => e.newspaper == np)).length : ℚ)
           / ((arts2.filter (fun a => a.newspaper == some np)).length : ℚ)
        else 0 := by rw [← hnpeq]
  refine ⟨(t.articles.filter (fun e => e.newspaper == np)).length, ?_, ?_, ?_, ?_, ?_⟩
  · rw [hcounts, List.get?_map, hnp_get, hfst]
    rfl
  · intro hpos
    rw [hfst] at hpos ⊢
    rw [hsnd, if_pos hpos]
  · intro hzero
    rw [hfst] at hzero
    rw [hsnd, if_neg (by omega)]
  · rw [hsnd]
    split
    · positivity
    · exact le_refl 0
  · rw [hsnd]
    split
    · rename_i hpos
      have hle : (t.articles.filter (fun e => e.newspaper == np)).length
          ≤ (arts2.filter (fun a => a.newspaper == some np)).length := by
        rw [hart]
        exact count_le_total arts2 rt.topic_id np hnp2
      rw [div_le_one (by exact_mod_cast hpos)]
      exact_mod_cast hle
    · exact zero_le_one

theorem proportion_spec_witness :
    (sampleResult.topics.get ⟨0, by decide⟩).newspaper_weights.get? 0
        = some ("b", ((1 : ℕ) : ℚ) / ((1 : ℕ) : ℚ)) ∧
    (∃ c, (sampleResult.topics.get ⟨0, by decide⟩).newspaper_counts.get? 0
        = some ("b", c) ∧
      (0 < (sampleMutated.filter (fun a => a.newspaper == some "b")).length →
        ((1 : ℕ) : ℚ) / ((1 : ℕ) : ℚ) = (c : ℚ)
          / ((sampleMutated.filter (fun a => a.newspaper == some "b")).length : ℚ)) ∧
      ((sampleMutated.filter (fun a => a.newspaper == some "b")).length = 0 →
        ((1 : ℕ) : ℚ) / ((1 : ℕ) : ℚ) = 0) ∧
      0 ≤ ((1 : ℕ) : ℚ) / ((1 : ℕ) : ℚ) ∧ ((1 : ℕ) : ℚ) / ((1 : ℕ) : ℚ) ≤ 1) :=
  ⟨rfl, proportion_spec "2025-10-12" sampleBackends List.dedup sampleArticles "lda" 2
    sampleResult sampleMutated sampleRun_eq (by decide)
    (sampleResult.topics.get ⟨0, by decide⟩) (List.get_mem _ _ _) 0
    ("b", ((1 : ℕ) : ℚ) / ((1 : ℕ) : ℚ)) rfl⟩

end DailyTopics
